import Mathlib

/-!
Verification of the LINE gate bot webhook (`src/index.js`, the most evolved
variant of the repository).  The JavaScript program is shallowly embedded:

* JS strings are `String` / `List Char` (all source strings are BMP, so JS
  UTF-16 code-unit indexing coincides with `Char` indexing);
* `Date.now()` timestamps and counters are `Nat`; a single webhook job samples
  the clock as one value `n` (event-loop millisecond granularity);
* the float `hit / Math.max(words.length, 1)` ratio is embedded as an exact
  rational (the quantities compared are small integers, where IEEE doubles and
  exact rationals order identically);
* network effects (reply, push, queue advance) are reified as an `Action` list;
* `Array.prototype.sort` (stable in modern JS) is `List.mergeSort`.
-/

namespace LineGate

/-! ## Character and string primitives (JS `\s`, `\d`, `trim`, `includes`, `indexOf`) -/

/-- The JS whitespace class `\s` restricted to the ASCII characters that occur
in this program's data (space, tab, LF, CR, VT, FF). -/
def isJsSpace (c : Char) : Bool :=
  c = ' ' || c = '\t' || c = '\n' || c = '\r' || c = '\x0b' || c = '\x0c'

/-- The JS digit class `\d`, i.e. `[0-9]`. -/
def isDigitCh (c : Char) : Bool :=
  '0' ≤ c && c ≤ '9'

/-- JS `String.prototype.trim` on a character list. -/
def jsTrimL (s : List Char) : List Char :=
  ((s.dropWhile isJsSpace).reverse.dropWhile isJsSpace).reverse

/-- JS `String.prototype.trim`. -/
def jsTrim (s : String) : String :=
  String.mk (jsTrimL s.data)

/-- Does `needle` occur at the head of `hay`? (Helper for `includes`/`indexOf`.) -/
def leadMatch : List Char → List Char → Bool
  | [], _ => true
  | _ :: _, [] => false
  | a :: as, b :: bs => a = b && leadMatch as bs

/-- JS `hay.includes(needle)` (substring containment; the empty needle matches). -/
def containsSub : List Char → List Char → Bool
  | hay, needle =>
    if leadMatch needle hay then true
    else match hay with
      | [] => false
      | _ :: t => containsSub t needle

/-- JS `hay.indexOf(needle)` returning the first match position, as an `Option`. -/
def indexOfSubAux (needle : List Char) : List Char → Nat → Option Nat
  | hay, i =>
    if leadMatch needle hay then some i
    else match hay with
      | [] => none
      | _ :: t => indexOfSubAux needle t (i + 1)

/-- JS `hay.indexOf(needle)` from position 0. -/
def indexOfSub (hay needle : List Char) : Option Nat :=
  indexOfSubAux needle hay 0

/-- JS `String.prototype.toLowerCase` restricted to ASCII (CJK text, which this
program's keyword sets consist of, is untouched by case mapping). -/
def jsLower (s : List Char) : List Char :=
  s.map Char.toLower

/-- Collapse every maximal run of whitespace to a single space: the
`replace(/\s+/g, ' ')` step of `norm`.  The flag records whether the previous
kept character closed a whitespace run. -/
def collapseWs : Bool → List Char → List Char
  | _, [] => []
  | inRun, c :: rest =>
    if isJsSpace c then
      if inRun then collapseWs true rest
      else ' ' :: collapseWs true rest
    else c :: collapseWs false rest

/-- `const norm = (s='') => String(s).toLowerCase().replace(/\s+/g,' ').trim()`. -/
def norm (s : String) : String :=
  String.mk (jsTrimL (collapseWs false (jsLower s.data)))

/-! ## Constants from `src/index.js` -/

def MANUAL_TTL_MS : Nat := 60 * 60 * 1000
def MANUAL_PING_COOLDOWN_MS : Nat := 2 * 60 * 1000
def WAIT_ORDER_TTL_MS : Nat := 24 * 60 * 60 * 1000
def WAIT_PROOF_TTL_MS : Nat := 7 * 24 * 60 * 60 * 1000
def GREET_IDLE_MS : Nat := 7 * 24 * 60 * 60 * 1000
def GREETING_TEXT : String := "Yuyi 機器人客服｜自動回覆系統（必要時轉真人）"
def GPT_MAX_CONCURRENT : Nat := 5
def GPT_QUEUE_REMIND_MS : Nat := 60 * 1000
def GPT_COOLDOWN_MS : Nat := 5 * 60 * 1000
def SPAM30_THRESHOLD : Nat := 6
def SPAM120_THRESHOLD : Nat := 15
def SPAM120_HARD_THRESHOLD : Nat := 40
def STATE_FLUSH_DEBOUNCE_MS : Nat := 900
def PRUNE_AFTER_MS : Nat := 10 * 24 * 60 * 60 * 1000
def MAX_USERS : Nat := 10000

/-! ## Reply texts (`TEXT`) -/

def TEXT_askOrder : String := "若要領貨，請提供【5 位數訂單編號】。"
def TEXT_askProof : String :=
  "請上傳【付款明細截圖】（圖片）。\n超商：紙本單據／轉帳：網銀轉帳紀錄／刷卡：扣款通知或網銀紀錄／電子支付：錢包消費紀錄。"
def TEXT_proofNote : String := "已收到補充說明，仍請上傳【付款明細截圖】即可。"
def TEXT_done : String := "資料已收齊，將由真人客服核對；如需補件會再通知，請稍候。"
def TEXT_needText : String := "一般問題請用文字描述；若要領貨，請先提供【5 位數訂單編號】。"
def TEXT_busy : String := "客服系統暫時忙碌，請稍後再試。"
def TEXT_imageNoText : String := "若要領貨，請先提供【5 位數訂單編號】；一般問題請用文字說明。"
def TEXT_invoiceFaq : String := "我們提供電子發票。\n發票說明與常見問題請至【問與答 → 發票相關】查看。"
def TEXT_queueEnter : String := "機器人目前正在處理其他用戶，\n已幫您排隊，請勿洗版，輪到您會主動通知。"
def TEXT_queueStill : String := "您已在排隊中，請耐心等候，輪到您會通知。"
def TEXT_queueStrong : String := "偵測到重複訊息，為維護服務品質，\n排隊期間請勿洗版；輪到您會通知。"
def TEXT_queueReady : String := "已輪到您，請直接把問題再傳一次，我會立刻處理。"
def TEXT_cooldown : String := "您訊息過於頻繁，系統已進入短暫冷卻以維護服務品質；\n請稍後再傳，輪到您會通知。"

/-! ## Small validators (`isPureFiveDigits`, `isValidUserId`) -/

/-- `const isPureFiveDigits = t => /^\s*\d{5}\s*$/.test(String(t || ''))`. -/
def isPureFiveDigits (t : String) : Bool :=
  let l := t.data.dropWhile isJsSpace
  (l.take 5).length = 5 && (l.take 5).all isDigitCh && (l.drop 5).all isJsSpace

/-- One hexadecimal digit, case-insensitive (`[0-9a-f]` under the `/i` flag). -/
def isHexCh (c : Char) : Bool :=
  isDigitCh c || ('a' ≤ c && c ≤ 'f') || ('A' ≤ c && c ≤ 'F')

/-- `const isValidUserId = u => typeof u === 'string' && /^U[0-9a-f]{32}$/i.test(u)`. -/
def isValidUserId (u : String) : Bool :=
  match u.data with
  | [] => false
  | c :: rest => (c = 'U' || c = 'u') && rest.length = 32 && rest.all isHexCh

/-! ## Intent keyword heuristics -/

/-- Keyword lists of `hasPickupIntent`. -/
def pickupExclude : List String :=
  ["等很久了", "怎麼那麼久", "到底好了沒", "處理一下", "回一下", "在嗎", "人呢", "快一點", "不回是怎樣"]
def pickupStrong : List String :=
  ["已付款", "付款了", "轉帳", "匯款", "繳費", "刷卡", "扣款", "領貨", "取貨", "拿貨", "出貨", "發貨", "寄了", "到了沒", "沒收到"]
def pickupWeak : List String := ["幫我查", "查訂單", "查一下", "查詢"]
def pickupOther : List String := ["序號", "點數", "卡"]

/-- `hasPickupIntent` from `src/index.js`. -/
def hasPickupIntent (t : String) : Bool :=
  let s := jsTrimL t.data
  if pickupExclude.any fun k => containsSub s k.data then false
  else if pickupStrong.any fun k => containsSub s k.data then true
  else if pickupWeak.any fun k => containsSub s k.data then false
  else pickupOther.any fun k => containsSub s k.data

/-- Keyword list of `hasInvoiceIntent`. -/
def invoiceKeys : List String :=
  ["發票", "电子发票", "電子發票", "統編", "载具", "載具", "抬頭", "開票", "开票"]

/-- `hasInvoiceIntent` from `src/index.js`. -/
def hasInvoiceIntent (t : String) : Bool :=
  let s := jsTrimL t.data
  if s = [] then false
  else invoiceKeys.any fun k => containsSub s k.data

/-- Keyword list of `hasResetIntent`. -/
def resetKeys : List String :=
  ["取消", "重來", "重做", "重新", "重啟", "傳錯", "傳錯了", "發錯", "貼錯", "重傳", "再傳", "改一下", "換一張"]

/-- `hasResetIntent` from `src/index.js`. -/
def hasResetIntent (t : String) : Bool :=
  let s := jsTrimL t.data
  resetKeys.any fun k => containsSub s k.data

/-! ## Order-candidate extraction (`extractOrderCandidate`) -/

/-- Is there a run of 7 or more consecutive digits (`/\d{7,}/.test(s)`)?
The accumulator counts the current run. -/
def digitRunScan : Nat → List Char → Bool
  | cnt, [] => 7 ≤ cnt
  | cnt, c :: t =>
    if isDigitCh c then 7 ≤ cnt + 1 || digitRunScan (cnt + 1) t
    else 7 ≤ cnt || digitRunScan 0 t

def hasLongDigitRun (s : List Char) : Bool :=
  digitRunScan 0 s

/-- Does an isolated (non-digit-delimited) 5-digit run start at index `i`?
This is one candidate position of `/(?:^|[^\d])(\d{5})(?:[^\d]|$)/`. -/
def isoFiveAt (s : List Char) (i : Nat) : Bool :=
  ((s.drop i).take 5).length = 5 &&
  ((s.drop i).take 5).all isDigitCh &&
  (i = 0 || (match s[i-1]? with | some c => !isDigitCh c | none => false)) &&
  (match (s.drop (i+5)).head? with | some c => !isDigitCh c | none => true)

/-- Leftmost match of `/(?:^|[^\d])(\d{5})(?:[^\d]|$)/`, i.e. the least index
at which an isolated 5-digit run starts (the regex engine scans start
positions left to right). -/
def firstIsolatedFive (s : List Char) : Option Nat :=
  (List.range s.length).find? (isoFiveAt s)

/-- The `/(訂單|單號|編號|訂單號|order)/i` test applied to a window. -/
def orderKeywordIn (w : List Char) : Bool :=
  let lw := jsLower w
  containsSub lw "訂單".data || containsSub lw "單號".data ||
  containsSub lw "編號".data || containsSub lw "訂單號".data ||
  containsSub lw "order".data

/-- `extractOrderCandidate` from `src/index.js`.  Note the proximity window is
centred on `s.indexOf(five)` — the first occurrence of the five digits as a
substring — exactly as in the source. -/
def extractOrderCandidate (text : String) : Option String :=
  let s := jsTrimL text.data
  if s = [] then none
  else if s.length = 5 && s.all isDigitCh then some (String.mk s)
  else
    let hasLong := hasLongDigitRun s
    match firstIsolatedFive s with
    | none => none
    | some i =>
      let five := (s.drop i).take 5
      let keywordNear :=
        match indexOfSub s five with
        | none => false
        | some idx =>
          let left := idx - 10
          let right := min s.length (idx + five.length + 10)
          orderKeywordIn ((s.drop left).take (right - left))
      if keywordNear then some (String.mk five)
      else if hasLong then none
      else some (String.mk five)

/-! ## Knowledge base scoring and retrieval (`kbScore`, `kbTopK`) -/

/-- A `kb.json` entry as consumed by `kbScore` (it reads `questions`, `answer`
and `tags`; other fields of the JSON entries are not used by the scorer). -/
structure KBItem where
  questions : List String
  answer : String
  tags : List String
deriving Repr, DecidableEq

/-- The record returned by `kbScore`.  The strong branch returns
`{score: 999, ratio: 1, strong: true}`.  The float `hit / max(words, 1)` is
embedded as an exact rational. -/
structure KbRank where
  score : Nat
  ratio : ℚ
  strong : Bool
deriving Repr, DecidableEq

/-- A token character of `q.split(/[^a-z0-9一-鿿]+/i)`: ASCII letter,
digit, or CJK unified ideograph. -/
def isTokenCh (c : Char) : Bool :=
  ('a' ≤ c && c ≤ 'z') || ('A' ≤ c && c ≤ 'Z') || isDigitCh c ||
  (0x4e00 ≤ c.val && c.val ≤ 0x9fff)

/-- Split into maximal runs of token characters (the separator-split with
empty pieces filtered out, as `split(...).filter(Boolean)` does). -/
def splitTokens : List Char → List (List Char)
  | [] => []
  | c :: rest =>
    if isTokenCh c then
      match splitTokens rest with
      | [] => [[c]]
      | w :: ws =>
        match rest with
        | [] => [[c]]
        | r :: _ => if isTokenCh r then (c :: w) :: ws else [c] :: w :: ws
    else splitTokens rest

/-- JS `Array.prototype.join(' ')`. -/
def joinSpace : List String → String
  | [] => ""
  | [s] => s
  | s :: rest => s ++ " " ++ joinSpace rest

/-- `kbScore(query, item)` from `src/index.js`. -/
def kbScore (query : String) (item : KBItem) : KbRank :=
  let q := norm query
  if q = "" then ⟨0, 0, false⟩
  else
    let qs := item.questions.map norm
    if 4 ≤ q.length && qs.any fun x => containsSub x.data q.data then
      ⟨999, 1, true⟩
    else
      let ans := norm item.answer
      let tags := item.tags.map norm
      let hay := norm (joinSpace (qs ++ [ans] ++ tags))
      let words := splitTokens q.data
      if words = [] then ⟨0, 0, false⟩
      else
        let hit := (words.filter fun w => 2 ≤ w.length && containsSub hay.data w).length
        ⟨hit, (hit : ℚ) / (max words.length 1 : ℚ), false⟩

/-- Sort key of the comparator
`(b.strong - a.strong) || (b.score - a.score) || (b.ratio - a.ratio)`. -/
def kbKey (x : KBItem × KbRank) : Nat × Nat × ℚ :=
  (if x.2.strong then 1 else 0, x.2.score, x.2.ratio)

/-- Lexicographic comparison of the sort keys: `keyLe x y` iff `x` ranks at or
below `y`. -/
def keyLe (x y : Nat × Nat × ℚ) : Bool :=
  x.1 < y.1 || (x.1 = y.1 && (x.2.1 < y.2.1 || (x.2.1 = y.2.1 && x.2.2 ≤ y.2.2)))

/-- `kbLe a b`: `a` sorts before (or ties with) `b` in the descending ranking,
i.e. the comparator value is ≤ 0. -/
def kbLe (a b : KBItem × KbRank) : Bool :=
  keyLe (kbKey b) (kbKey a)

/-- The scored, score-filtered candidate list (the `.map(...).filter(x => x.score > 0)`
stage of `kbTopK`, before sorting). -/
def kbCandidates (kb : List KBItem) (q : String) : List (KBItem × KbRank) :=
  (kb.map fun it => (it, kbScore q it)).filter fun x => 0 < x.2.score

/-- Acceptance test applied to the best candidate: strong, or
`score >= 2 && ratio >= 0.4` (0.4 = 2/5 exactly; the doubles compared here
order as the exact rationals do). -/
def kbPass (x : KBItem × KbRank) : Bool :=
  x.2.strong || (2 ≤ x.2.score && (2 : ℚ)/5 ≤ x.2.ratio)

/-- `kbTopK(query, k)` from `src/index.js`, over an explicit `KB` list. -/
def kbTopK (kb : List KBItem) (query : String) (k : Nat) : List KBItem :=
  let ranked := ((kbCandidates kb query).mergeSort kbLe).take k
  match ranked.head? with
  | none => []
  | some best =>
    if best.2.strong then ranked.map (·.1)
    else if 2 ≤ best.2.score && (2 : ℚ)/5 ≤ best.2.ratio then ranked.map (·.1)
    else []

/-! ## Per-user conversation record (`defaultState`) and its helpers.

JS `_`-prefixed fields keep their names minus the underscore.  `markDirty`
and `touch` both set `updatedAt` to the current time; the `scheduleFlush`
side effect of `markDirty` belongs to the persistence scheduler and carries
no per-record data, so it is not part of the record model. -/

structure St where
  state : String
  order : Option String
  proofMessageId : Option String
  proofAt : Nat
  pushed : Bool
  manualUntil : Nat
  lastManualPingAt : Nat
  manualBurstCount : Nat
  manualLastBrief : String
  updatedAt : Nat
  lastSeenAt : Nat
  lastGreetAt : Nat
  lastPresenceFlushAt : Nat
  gptQueued : Bool
  gptQueuedAt : Nat
  gptLastQueueReplyAt : Nat
  gptReadyNotifiedAt : Nat
  cooldownUntil : Nat
  cooldownNotifiedAt : Nat
  spam30Start : Nat
  spam30Count : Nat
  spam120Start : Nat
  spam120Count : Nat
deriving Repr, DecidableEq

/-- `defaultState()` (its `updatedAt: now()` makes it depend on the clock). -/
def defaultState (n : Nat) : St where
  state := "WAIT_ORDER"
  order := none
  proofMessageId := none
  proofAt := 0
  pushed := false
  manualUntil := 0
  lastManualPingAt := 0
  manualBurstCount := 0
  manualLastBrief := ""
  updatedAt := n
  lastSeenAt := 0
  lastGreetAt := 0
  lastPresenceFlushAt := 0
  gptQueued := false
  gptQueuedAt := 0
  gptLastQueueReplyAt := 0
  gptReadyNotifiedAt := 0
  cooldownUntil := 0
  cooldownNotifiedAt := 0
  spam30Start := 0
  spam30Count := 0
  spam120Start := 0
  spam120Count := 0

/-- `resetState(st)`. -/
def resetState (st : St) (n : Nat) : St :=
  { st with state := "WAIT_ORDER", order := none, proofMessageId := none,
            proofAt := 0, pushed := false, updatedAt := n }

/-- `expireIfNeeded(st)`: silent TTL reset of idle records, applied before any
other rule of the job. -/
def expireIfNeeded (st : St) (n : Nat) : St :=
  let st := if st.updatedAt = 0 then { st with updatedAt := n } else st
  let idle := n - st.updatedAt
  if st.state = "WAIT_ORDER" ∧ WAIT_ORDER_TTL_MS < idle then resetState st n
  else if st.state = "WAIT_PROOF" ∧ WAIT_PROOF_TTL_MS < idle then resetState st n
  else st

/-- `isManual(st)`: the manual-handoff gate predicate, returning its value and
the (lazily cleared) record. -/
def isManualStep (st : St) (n : Nat) : Bool × St :=
  if st.manualUntil = 0 then (false, st)
  else if n < st.manualUntil then (true, st)
  else (false, { st with manualUntil := 0, updatedAt := n })

/-- `setManual(st)`. -/
def setManual (st : St) (n : Nat) : St :=
  { st with manualUntil := n + MANUAL_TTL_MS, lastManualPingAt := 0,
            manualBurstCount := 0, manualLastBrief := "", updatedAt := n }

/-- `normalizeCooldown(st)`. -/
def normalizeCooldown (st : St) (n : Nat) : St :=
  if st.cooldownUntil ≠ 0 ∧ st.cooldownUntil ≤ n then
    { st with cooldownUntil := 0, cooldownNotifiedAt := 0, updatedAt := n }
  else st

/-- `enterCooldown(st)`. -/
def enterCooldown (st : St) (n : Nat) : St :=
  { st with cooldownUntil := n + GPT_COOLDOWN_MS, cooldownNotifiedAt := 0,
            gptQueued := false, gptQueuedAt := 0, gptReadyNotifiedAt := 0,
            gptLastQueueReplyAt := n, updatedAt := n }

/-- `bumpSpamCounters(st)`. -/
def bumpSpamCounters (st : St) (n : Nat) : St :=
  let st :=
    if st.spam30Start = 0 ∨ 30 * 1000 < n - st.spam30Start then
      { st with spam30Start := n, spam30Count := 1 }
    else { st with spam30Count := st.spam30Count + 1 }
  let st :=
    if st.spam120Start = 0 ∨ 120 * 1000 < n - st.spam120Start then
      { st with spam120Start := n, spam120Count := 1 }
    else { st with spam120Count := st.spam120Count + 1 }
  { st with updatedAt := n }

/-- `shouldReplyQueueMessage(st, ms)`. -/
def shouldReplyQueueMessage (st : St) (n : Nat) (ms : Nat) : Bool × St :=
  if st.gptLastQueueReplyAt = 0 ∨ ms < n - st.gptLastQueueReplyAt then
    (true, { st with gptLastQueueReplyAt := n, updatedAt := n })
  else (false, st)

/-- `handleQueuedAntiSpam(st, wasQueuedAlready)`: returns the record and the
optional notice text (`replyText`). -/
def handleQueuedAntiSpam (st : St) (n : Nat) (wasQueuedAlready : Bool) :
    St × Option String :=
  let st := bumpSpamCounters st n
  if SPAM120_HARD_THRESHOLD ≤ st.spam120Count then
    (enterCooldown st n, some TEXT_cooldown)
  else
    let strongWarn :=
      SPAM30_THRESHOLD ≤ st.spam30Count || SPAM120_THRESHOLD ≤ st.spam120Count
    let r := shouldReplyQueueMessage st n GPT_QUEUE_REMIND_MS
    if r.1 then
      if !wasQueuedAlready then (r.2, some TEXT_queueEnter)
      else (r.2, some (if strongWarn then TEXT_queueStrong else TEXT_queueStill))
    else (r.2, none)

/-- `maybeFlushPresence(st)` (its `scheduleFlush` effect carries no data). -/
def maybeFlushPresence (st : St) (n : Nat) : St :=
  if st.lastPresenceFlushAt = 0 ∨ 10 * 60 * 1000 < n - st.lastPresenceFlushAt then
    { st with lastPresenceFlushAt := n }
  else st

/-! ## Inbound messages and outbound effects -/

/-- An inbound message, as dispatched on `e.message.type`. -/
inductive Msg
  | text (s : String)
  | image (id : Option String)
  | video
  | audio
  | file (fileName : String)
  | sticker
  | other
deriving Repr, DecidableEq

/-- `briefOfMessage(e)`. -/
def briefOfMessage : Msg → String
  | .text s => String.mk (s.data.take 80)
  | .image _ => "[圖片]"
  | .video => "[影片]"
  | .audio => "[音訊]"
  | .file fn => "[檔案] " ++ String.mk (fn.data.take 40)
  | .sticker => "[貼圖]"
  | .other => "[未知]"

/-- A push to `ADMIN_USER_ID`, carrying the data its message template
interpolates.  `handoff` is the `通關通知` template sent once on intake
completion; `manualSummary` is the `人工期間新訊息（彙整）` burst summary. -/
inductive AdminMsg
  | handoff (name : String) (order : Option String) (proofId : Option String)
  | manualSummary (name : String) (order : Option String) (burst : Nat)
      (brief : String) (t : Nat)
deriving Repr, DecidableEq

/-- An outbound effect of one webhook job.  `reply` is `replyMany` on the
event's reply token (directed at the message's sender); `pushAdmin` is a push
to the operator; `advanceQueue` is the `onGptFinished` trigger that lets
`notifyNextQueuedUsers` notify other users (it never modifies `gptActive`). -/
inductive Action
  | reply (msgs : List String)
  | pushAdmin (m : AdminMsg)
  | advanceQueue
deriving Repr, DecidableEq

/-- `replyMany(replyToken, texts)`: drops falsy entries, caps at 5 messages,
and sends nothing when nothing remains (the reply token of a message event is
always present). -/
def replyMany (texts : List String) : List Action :=
  let arr := (texts.filter fun t => t ≠ "").take 5
  if arr = [] then [] else [Action.reply arr]

/-- `replyWithGreetingIfNeeded(st, replyToken, mainText)`. -/
def replyWithGreetingIfNeeded (st : St) (n : Nat) (mainText : String) :
    St × List Action :=
  let idleTooLong := st.lastSeenAt ≠ 0 ∧ GREET_IDLE_MS < n - st.lastSeenAt
  let st := { st with lastSeenAt := n }
  let needGreet : Bool := st.lastGreetAt = 0 ∨ idleTooLong
  let st := if needGreet then { st with lastGreetAt := n } else st
  let st := maybeFlushPresence st n
  if needGreet then (st, replyMany [GREETING_TEXT, mainText])
  else (st, replyMany [mainText])

/-! ## GPT admission controller globals -/

/-- The module-level GPT admission state: `gptActive`, `gptWaitQueue`
(modelled from its head pointer on, so `push` appends and the head is the
next entry) and `gptQueuedSet`. -/
structure Glob where
  gptActive : Nat
  gptWaitQueue : List String
  gptQueuedSet : List String
deriving Repr, DecidableEq

/-- `tryAcquireGptSlot()`: fails iff the cap is reached, else increments. -/
def tryAcquireGptSlot (gptActive : Nat) : Bool × Nat :=
  if GPT_MAX_CONCURRENT ≤ gptActive then (false, gptActive)
  else (true, gptActive + 1)

/-- `releaseGptSlot()`'s counter update, `Math.max(0, gptActive - 1)`
(truncated subtraction); the subsequent `onGptFinished` queue advance is the
`Action.advanceQueue` effect. -/
def releaseGptSlot (gptActive : Nat) : Nat :=
  gptActive - 1

/-- `queueUserForGpt(uid, st)`. -/
def queueUserForGpt (uid : String) (st : St) (g : Glob) (n : Nat) : St × Glob :=
  if st.gptQueued ∧ uid ∈ g.gptQueuedSet then (st, g)
  else
    let st := { st with gptQueued := true, gptQueuedAt := n,
                        gptReadyNotifiedAt := 0, updatedAt := n }
    if uid ∈ g.gptQueuedSet then (st, g)
    else (st, { g with gptQueuedSet := g.gptQueuedSet ++ [uid],
                       gptWaitQueue := g.gptWaitQueue ++ [uid] })

/-- `unqueueUser(uid, st)`. -/
def unqueueUser (uid : String) (st : St) (g : Glob) (n : Nat) : St × Glob :=
  ({ st with gptQueued := false, gptQueuedAt := 0, gptReadyNotifiedAt := 0,
             updatedAt := n },
   { g with gptQueuedSet := g.gptQueuedSet.erase uid })

/-! ## The webhook job (`app.post('/webhook')`, body of `enqueue(uid, ...)`) -/

/-- The per-job environment: the sampled clock, the sender, and the results of
the job's external calls (`getProfile`, `OPENAI_API_KEY` presence, the
`gptReplyDirect` outcome — which is `TEXT.busy` on HTTP failure, malformed
output, or the 8s timeout, since that function never throws). -/
structure Env where
  n : Nat
  uid : String
  profileName : Option String
  hasOpenAIKey : Bool
  gptAnswer : String
  kb : List KBItem
deriving Repr, DecidableEq

/-- JS `x || d` on an optional string (`null`/empty fall back to `d`). -/
def jsStrOr (o : Option String) (d : String) : String :=
  match o with
  | some s => if s = "" then d else s
  | none => d

/-- The tail of the cooldown branch: notify `TEXT.cooldown` at most once per
cooldown window, then absorb. -/
def cooldownNotice (st : St) (n : Nat) : St × List Action :=
  if st.cooldownNotifiedAt = 0 then
    let st := { st with cooldownNotifiedAt := n, updatedAt := n }
    let r := replyWithGreetingIfNeeded st n TEXT_cooldown
    (r.1, r.2)
  else (st, [])

/-- The body of the manual-handoff branch (`/* 人工期：不回客，只彙整推播 */`):
absorb silently, count the burst, push a coalesced summary to the operator at
most once per `MANUAL_PING_COOLDOWN_MS`. -/
def manualBranch (env : Env) (g : Glob) (st : St) (m : Msg) :
    St × Glob × List Action :=
  let n := env.n
  let st := maybeFlushPresence { st with lastSeenAt := n } n
  let st := { st with manualBurstCount := st.manualBurstCount + 1,
                      manualLastBrief := briefOfMessage m, updatedAt := n }
  if MANUAL_PING_COOLDOWN_MS < n - st.lastManualPingAt then
    let st := { st with lastManualPingAt := n }
    let acts := [Action.pushAdmin (AdminMsg.manualSummary
      (jsStrOr env.profileName "未提供") st.order st.manualBurstCount
      st.manualLastBrief n)]
    ({ st with manualBurstCount := 0, manualLastBrief := "", updatedAt := n },
     g, acts)
  else (st, g, [])

/-- The recurring motif `const r = handleQueuedAntiSpam(st, w); if (r.replyText)
await replyWithGreetingIfNeeded(...)`. -/
def antiSpamReplyStep (st : St) (n : Nat) (wasQueued : Bool) : St × List Action :=
  let r := handleQueuedAntiSpam st n wasQueued
  match r.2 with
  | some tx => replyWithGreetingIfNeeded r.1 n tx
  | none => (r.1, [])

/-- The body of the cooldown branch
(`/* ===== 冷卻中：只影響一般問題/GPT；領貨照走 ===== */`). -/
def cooldownBranch (env : Env) (g : Glob) (st : St) (m : Msg) :
    St × Glob × List Action :=
  let n := env.n
  match m with
  | .text raw =>
    let t0 := jsTrim raw
    if st.state = "WAIT_ORDER" ∧ isPureFiveDigits t0 then
      let st := { st with order := some (jsTrim t0), state := "WAIT_PROOF",
                          updatedAt := n }
      let r := replyWithGreetingIfNeeded st n TEXT_askProof
      (r.1, g, r.2)
    else if st.state = "WAIT_ORDER" ∧ hasPickupIntent t0 then
      match extractOrderCandidate t0 with
      | some ex =>
        let st := { st with order := some ex, state := "WAIT_PROOF",
                            updatedAt := n }
        let r := replyWithGreetingIfNeeded st n TEXT_askProof
        (r.1, g, r.2)
      | none =>
        let r := replyWithGreetingIfNeeded st n TEXT_askOrder
        (r.1, g, r.2)
    else if st.state = "WAIT_PROOF" then
      let r := replyWithGreetingIfNeeded st n TEXT_proofNote
      (r.1, g, r.2)
    else if st.state = "DONE" then
      let r := replyWithGreetingIfNeeded st n TEXT_done
      (r.1, g, r.2)
    else
      let r := cooldownNotice st n
      (r.1, g, r.2)
  | _ =>
    let r := cooldownNotice st n
    (r.1, g, r.2)

/-- The body of the image branch (`/* 圖片訊息 */`). -/
def imageBranch (env : Env) (g : Glob) (st : St) (mid : Option String) :
    St × Glob × List Action :=
  let n := env.n
  if st.state = "WAIT_PROOF" ∧ st.pushed = false then
    let st := { st with proofMessageId := mid, proofAt := n,
                        state := "DONE", pushed := true, updatedAt := n }
    let r := replyWithGreetingIfNeeded st n TEXT_done
    let st := setManual r.1 n
    (st, g, r.2 ++ [Action.pushAdmin
      (AdminMsg.handoff (jsStrOr env.profileName "未提供") st.order
        st.proofMessageId)])
  else if st.gptQueued then
    let r := antiSpamReplyStep st n true
    (r.1, g, r.2)
  else
    let st := { st with updatedAt := n }
    let r := replyWithGreetingIfNeeded st n TEXT_imageNoText
    (r.1, g, r.2)

/-- The body of the branch for other non-text types
(`/* 其他非文字類型（含貼圖） */`). -/
def miscBranch (env : Env) (g : Glob) (st : St) : St × Glob × List Action :=
  let n := env.n
  if st.gptQueued then
    let r := antiSpamReplyStep st n true
    (r.1, g, r.2)
  else
    let out :=
      if st.state = "WAIT_PROOF" then TEXT_askProof
      else if st.state = "DONE" then TEXT_done
      else TEXT_needText
    let st := { st with updatedAt := n }
    let r := replyWithGreetingIfNeeded st n out
    (r.1, g, r.2)

/-- A knowledge-base hit: `unqueueUser` then reply `hits[0].answer || TEXT.busy`. -/
def kbHitReply (env : Env) (g : Glob) (st : St) (h : KBItem) :
    St × Glob × List Action :=
  let u := unqueueUser env.uid st g env.n
  let r := replyWithGreetingIfNeeded u.1 env.n (jsStrOr (some h.answer) TEXT_busy)
  (r.1, u.2, r.2)

/-- No slot: queue the user (idempotently) and send the queue/anti-spam notice. -/
def queueAndNotice (env : Env) (g : Glob) (st : St) : St × Glob × List Action :=
  let wasQueued := st.gptQueued
  let q := queueUserForGpt env.uid st g env.n
  let r := antiSpamReplyStep q.1 env.n wasQueued
  (r.1, q.2, r.2)

/-- The GPT dispatch tail (`src/index.js` lines 1013–1047): no key → busy;
queued → anti-spam notice; cap reached or acquisition failed → queue;
otherwise acquire, call, reply, and release in the `finally`. -/
def gptDispatch (env : Env) (g : Glob) (st : St) : St × Glob × List Action :=
  if !env.hasOpenAIKey then
    let r := replyWithGreetingIfNeeded st env.n TEXT_busy
    (r.1, g, r.2)
  else if st.gptQueued then
    let r := antiSpamReplyStep st env.n true
    (r.1, g, r.2)
  else if GPT_MAX_CONCURRENT ≤ g.gptActive then queueAndNotice env g st
  else
    let acq := tryAcquireGptSlot g.gptActive
    if !acq.1 then queueAndNotice env g st
    else
      let g2 := { g with gptActive := acq.2 }
      let u := unqueueUser env.uid st g2 env.n
      let r := replyWithGreetingIfNeeded u.1 env.n env.gptAnswer
      (r.1, { u.2 with gptActive := releaseGptSlot u.2.gptActive },
       r.2 ++ [Action.advanceQueue])

/-- The body of the text branch (`/* 文字 */`). -/
def textBranch (env : Env) (g : Glob) (st : St) (raw : String) :
    St × Glob × List Action :=
  let n := env.n
  let t := jsTrim raw
  let st := { st with updatedAt := n }
  if (st.state = "WAIT_PROOF" ∨ st.state = "DONE") ∧ hasResetIntent t then
    let r := replyWithGreetingIfNeeded (resetState st n) n TEXT_askOrder
    (r.1, g, r.2)
  else if st.state = "WAIT_PROOF" then
    let r := replyWithGreetingIfNeeded st n TEXT_proofNote
    (r.1, g, r.2)
  else if st.state = "DONE" then
    let r := replyWithGreetingIfNeeded st n TEXT_done
    (r.1, g, r.2)
  else if st.state = "WAIT_ORDER" ∧ hasInvoiceIntent t ∧ ¬hasPickupIntent t then
    let r := replyWithGreetingIfNeeded st n TEXT_invoiceFaq
    (r.1, g, r.2)
  else if st.state = "WAIT_ORDER" ∧ isPureFiveDigits t then
    let st := { st with order := some (jsTrim t), state := "WAIT_PROOF",
                        updatedAt := n }
    let r := replyWithGreetingIfNeeded st n TEXT_askProof
    (r.1, g, r.2)
  else
    match (if st.state = "WAIT_ORDER" then kbTopK env.kb t 4 else []) with
    | h :: _ => kbHitReply env g st h
    | [] =>
      if st.state = "WAIT_ORDER" ∧ hasPickupIntent t then
        match extractOrderCandidate t with
        | some ex =>
          let st := { st with order := some ex, state := "WAIT_PROOF",
                              updatedAt := n }
          let r := replyWithGreetingIfNeeded st n TEXT_askProof
          (r.1, g, r.2)
        | none =>
          let r := replyWithGreetingIfNeeded st n TEXT_askOrder
          (r.1, g, r.2)
      else
        match kbTopK env.kb t 4 with
        | h :: _ => kbHitReply env g st h
        | [] => gptDispatch env g st

/-- One serialized webhook job for one deduplicated message event, translated
branch-for-branch from `src/index.js` lines 801–1048. -/
def handleEvent (env : Env) (g : Glob) (st0 : St) (m : Msg) :
    St × Glob × List Action :=
  let n := env.n
  let st := expireIfNeeded st0 n
  let st := normalizeCooldown st n
  let mr := isManualStep st n
  let st := mr.2
  if mr.1 then manualBranch env g st m
  else if st.cooldownUntil ≠ 0 ∧ n < st.cooldownUntil then cooldownBranch env g st m
  else
    match m with
    | .image mid => imageBranch env g st mid
    | .text raw => textBranch env g st raw
    | _ => miscBranch env g st

/-- Run a sequence of serialized jobs for one user, collecting all actions. -/
def runEvents (g : Glob) (st : St) : List (Env × Msg) → St × Glob × List Action
  | [] => (st, g, [])
  | (env, m) :: rest =>
    let r := handleEvent env g st m
    let r2 := runEvents r.2.1 r.1 rest
    (r2.1, r2.2.1, r.2.2 ++ r2.2.2)

/-! ## Persistence (`state.json`): flush, load, prune.

JSON serialization is embedded structurally: a persisted record is a `StoredSt`
whose fields are `Option`s (a legacy snapshot may lack fields); serializing a
live record yields a `StoredSt` with every field present, and the load-time
spread `{ ...defaultState(), ...st }` picks the stored field when present and
the default otherwise.  The state table is an association list in `Map`
insertion order (JSON objects preserve it); `Map` keys are unique. -/

structure StoredSt where
  state : Option String
  order : Option (Option String)
  proofMessageId : Option (Option String)
  proofAt : Option Nat
  pushed : Option Bool
  manualUntil : Option Nat
  lastManualPingAt : Option Nat
  manualBurstCount : Option Nat
  manualLastBrief : Option String
  updatedAt : Option Nat
  lastSeenAt : Option Nat
  lastGreetAt : Option Nat
  lastPresenceFlushAt : Option Nat
  gptQueued : Option Bool
  gptQueuedAt : Option Nat
  gptLastQueueReplyAt : Option Nat
  gptReadyNotifiedAt : Option Nat
  cooldownUntil : Option Nat
  cooldownNotifiedAt : Option Nat
  spam30Start : Option Nat
  spam30Count : Option Nat
  spam120Start : Option Nat
  spam120Count : Option Nat
deriving Repr, DecidableEq

/-- `JSON.stringify` of one record: every field is written. -/
def toStored (st : St) : StoredSt where
  state := some st.state
  order := some st.order
  proofMessageId := some st.proofMessageId
  proofAt := some st.proofAt
  pushed := some st.pushed
  manualUntil := some st.manualUntil
  lastManualPingAt := some st.lastManualPingAt
  manualBurstCount := some st.manualBurstCount
  manualLastBrief := some st.manualLastBrief
  updatedAt := some st.updatedAt
  lastSeenAt := some st.lastSeenAt
  lastGreetAt := some st.lastGreetAt
  lastPresenceFlushAt := some st.lastPresenceFlushAt
  gptQueued := some st.gptQueued
  gptQueuedAt := some st.gptQueuedAt
  gptLastQueueReplyAt := some st.gptLastQueueReplyAt
  gptReadyNotifiedAt := some st.gptReadyNotifiedAt
  cooldownUntil := some st.cooldownUntil
  cooldownNotifiedAt := some st.cooldownNotifiedAt
  spam30Start := some st.spam30Start
  spam30Count := some st.spam30Count
  spam120Start := some st.spam120Start
  spam120Count := some st.spam120Count

/-- `{ ...defaultState(), ...st }`: stored fields override the fresh default
(`n` is the load-time clock seen by `defaultState()`). -/
def mergeOverDefault (n : Nat) (s : StoredSt) : St :=
  let d := defaultState n
  { state := s.state.getD d.state
    order := s.order.getD d.order
    proofMessageId := s.proofMessageId.getD d.proofMessageId
    proofAt := s.proofAt.getD d.proofAt
    pushed := s.pushed.getD d.pushed
    manualUntil := s.manualUntil.getD d.manualUntil
    lastManualPingAt := s.lastManualPingAt.getD d.lastManualPingAt
    manualBurstCount := s.manualBurstCount.getD d.manualBurstCount
    manualLastBrief := s.manualLastBrief.getD d.manualLastBrief
    updatedAt := s.updatedAt.getD d.updatedAt
    lastSeenAt := s.lastSeenAt.getD d.lastSeenAt
    lastGreetAt := s.lastGreetAt.getD d.lastGreetAt
    lastPresenceFlushAt := s.lastPresenceFlushAt.getD d.lastPresenceFlushAt
    gptQueued := s.gptQueued.getD d.gptQueued
    gptQueuedAt := s.gptQueuedAt.getD d.gptQueuedAt
    gptLastQueueReplyAt := s.gptLastQueueReplyAt.getD d.gptLastQueueReplyAt
    gptReadyNotifiedAt := s.gptReadyNotifiedAt.getD d.gptReadyNotifiedAt
    cooldownUntil := s.cooldownUntil.getD d.cooldownUntil
    cooldownNotifiedAt := s.cooldownNotifiedAt.getD d.cooldownNotifiedAt
    spam30Start := s.spam30Start.getD d.spam30Start
    spam30Count := s.spam30Count.getD d.spam30Count
    spam120Start := s.spam120Start.getD d.spam120Start
    spam120Count := s.spam120Count.getD d.spam120Count }

/-- `st.lastSeenAt || st.updatedAt || 0` used by `pruneStore`. -/
def lastOf (st : St) : Nat :=
  if st.lastSeenAt ≠ 0 then st.lastSeenAt else st.updatedAt

/-- `pruneStore()`: drop records idle beyond the retention window, then, if
still over `MAX_USERS`, evict the least-recently-active (stable sort by the
activity stamp, ascending, exactly as `arr.sort((a,b) => a[1]-b[1])`). -/
def pruneStore (l : List (String × St)) (n : Nat) : List (String × St) :=
  let l1 := l.filter fun p => !(lastOf p.2 ≠ 0 && PRUNE_AFTER_MS < n - lastOf p.2)
  if MAX_USERS < l1.length then
    let arr := (l1.map fun p => (p.1, lastOf p.2)).mergeSort fun a b => a.2 ≤ b.2
    let dropped := (arr.take (l1.length - MAX_USERS)).map (·.1)
    l1.filter fun p => !(dropped.contains p.1)
  else l1

/-- `flushStateToDisk()`: prune, then serialize every entry of the table. -/
def flushModel (l : List (String × St)) (n : Nat) : List (String × StoredSt) :=
  (pruneStore l n).map fun p => (p.1, toStored p.2)

/-- `store.set(uid, v)` on an association list: `Map.set` overwrites in place
when the key exists, else appends. -/
def storeSet (acc : List (String × St)) (uid : String) (v : St) :
    List (String × St) :=
  match acc with
  | [] => [(uid, v)]
  | (k, w) :: rest =>
    if k = uid then (k, v) :: rest else (k, w) :: storeSet rest uid v

/-- The load loop of `loadStateFromDisk()`: skip keys that fail
`isValidUserId`, merge the rest over a fresh default, insert in order. -/
def loadLoop (n : Nat) : List (String × StoredSt) → List (String × St) →
    List (String × St)
  | [], acc => acc
  | (uid, s) :: rest, acc =>
    if isValidUserId uid then loadLoop n rest (storeSet acc uid (mergeOverDefault n s))
    else loadLoop n rest acc

/-- `loadStateFromDisk()`: the load loop from an empty table, then
`pruneStore()`. -/
def loadModel (data : List (String × StoredSt)) (n : Nat) : List (String × St) :=
  pruneStore (loadLoop n data []) n

/-! ## Admission-controller event system (for the concurrency bound) -/

/-- The two event-loop turns that touch `gptActive`: a webhook job reaching
the GPT dispatch (`tryAcquireGptSlot`, queueing on failure), and a generative
call finishing (`releaseGptSlot` in the `finally` of the dispatch, on success,
failure and timeout alike).  Turns of the single-threaded event loop
interleave arbitrarily between these points. -/
inductive GptEvt
  | dispatch
  | complete
deriving Repr, DecidableEq

/-- Effect of one turn on the `gptActive` counter. -/
def gptStep (a : Nat) : GptEvt → Nat
  | .dispatch => (tryAcquireGptSlot a).2
  | .complete => releaseGptSlot a

theorem gptStep_le {a : Nat} (h : a ≤ GPT_MAX_CONCURRENT) (e : GptEvt) :
    gptStep a e ≤ GPT_MAX_CONCURRENT := by
  cases e with
  | dispatch =>
    simp only [gptStep, tryAcquireGptSlot]
    split <;> simp_all [GPT_MAX_CONCURRENT] <;> omega
  | complete => simp only [gptStep, releaseGptSlot]; omega

theorem gptActive_fold_le (evts : List GptEvt) :
    ∀ a : Nat, a ≤ GPT_MAX_CONCURRENT →
      evts.foldl gptStep a ≤ GPT_MAX_CONCURRENT := by
  induction evts with
  | nil => intro a h; simpa using h
  | cons e rest ih => intro a h; exact ih _ (gptStep_le h e)

theorem queueUserForGpt_gptActive (uid : String) (st : St) (g : Glob) (n : Nat) :
    (queueUserForGpt uid st g n).2.gptActive = g.gptActive := by
  simp only [queueUserForGpt]
  split
  · rfl
  · split <;> rfl

theorem unqueueUser_gptActive (uid : String) (st : St) (g : Glob) (n : Nat) :
    (unqueueUser uid st g n).2.gptActive = g.gptActive := rfl

theorem manualBranch_gptActive (env : Env) (g : Glob) (st : St) (m : Msg) :
    (manualBranch env g st m).2.1 = g := by
  unfold manualBranch
  dsimp only
  split <;> rfl

theorem cooldownBranch_gptActive (env : Env) (g : Glob) (st : St) (m : Msg) :
    (cooldownBranch env g st m).2.1 = g := by
  unfold cooldownBranch
  cases m <;> dsimp only <;> repeat' split
  all_goals rfl

theorem imageBranch_gptActive (env : Env) (g : Glob) (st : St) (mid : Option String) :
    (imageBranch env g st mid).2.1 = g := by
  unfold imageBranch
  dsimp only
  repeat' split
  all_goals rfl

theorem miscBranch_gptActive (env : Env) (g : Glob) (st : St) :
    (miscBranch env g st).2.1 = g := by
  unfold miscBranch
  dsimp only
  repeat' split
  all_goals rfl

theorem kbHitReply_gptActive (env : Env) (g : Glob) (st : St) (h : KBItem) :
    (kbHitReply env g st h).2.1.gptActive = g.gptActive := rfl

theorem queueAndNotice_gptActive (env : Env) (g : Glob) (st : St) :
    (queueAndNotice env g st).2.1.gptActive = g.gptActive := by
  unfold queueAndNotice
  exact queueUserForGpt_gptActive env.uid st g env.n

theorem gptDispatch_gptActive (env : Env) (g : Glob) (st : St) :
    (gptDispatch env g st).2.1.gptActive = g.gptActive := by
  unfold gptDispatch
  dsimp only
  split
  · rfl
  split
  · rfl
  split
  · exact queueAndNotice_gptActive env g st
  split
  · exact queueAndNotice_gptActive env g st
  -- the acquired branch: release undoes the acquire
  rename_i hcap hacq
  simp only [unqueueUser, releaseGptSlot]
  simp only [tryAcquireGptSlot, if_neg hcap]
  omega

theorem textBranch_gptActive (env : Env) (g : Glob) (st : St) (raw : String) :
    (textBranch env g st raw).2.1.gptActive = g.gptActive := by
  unfold textBranch
  dsimp only
  repeat' split
  all_goals first
    | rfl
    | exact kbHitReply_gptActive env g _ _
    | exact gptDispatch_gptActive env g _

/-- Every webhook job leaves `gptActive` exactly where it found it: an
acquired slot is always released before the job ends (the `finally` path). -/
theorem handleEvent_gptActive (env : Env) (g : Glob) (st : St) (m : Msg) :
    (handleEvent env g st m).2.1.gptActive = g.gptActive := by
  unfold handleEvent
  dsimp only
  split
  · simp only [manualBranch_gptActive]
  split
  · simp only [cooldownBranch_gptActive]
  split
  · simp only [imageBranch_gptActive]
  · exact textBranch_gptActive env g _ _
  · simp only [miscBranch_gptActive]

/-- C3: the number of in-flight generative calls never exceeds the cap of 5:
an acquisition succeeds exactly when `gptActive < GPT_MAX_CONCURRENT`, every
job balances its acquire with a release, and therefore `gptActive` stays at
or below `GPT_MAX_CONCURRENT` along every interleaving of dispatches and
completions starting from the idle state. -/
theorem gpt_concurrency_invariant :
    (∀ a : Nat, (tryAcquireGptSlot a).1 = true ↔ a < GPT_MAX_CONCURRENT) ∧
    (∀ env g st m, (handleEvent env g st m).2.1.gptActive = g.gptActive) ∧
    (∀ evts : List GptEvt, evts.foldl gptStep 0 ≤ GPT_MAX_CONCURRENT) := by
  refine ⟨fun a => ?_, handleEvent_gptActive, fun evts => gptActive_fold_le evts 0 (by simp)⟩
  simp only [tryAcquireGptSlot]
  split <;> simp <;> omega

/-! ## C8: the lazy manual-window expiry -/

/-- A record whose manual window has already expired while intake is still in
the proof phase. -/
def stManualExpired : St :=
  { (defaultState 0) with
    manualUntil := 5, state := "WAIT_PROOF", updatedAt := 3 }

/-- C8 counterexample: at time 10 the window `manualUntil = 5` of
`stManualExpired` has passed; `isManual` returns `false` and clears
`manualUntil`, but the phase stays `WAIT_PROOF` — it is not reset to
`WAIT_ORDER` as the claim states. -/
theorem isManual_no_phase_reset_cex :
    (isManualStep stManualExpired 10).1 = false ∧
    (isManualStep stManualExpired 10).2.manualUntil = 0 ∧
    (isManualStep stManualExpired 10).2.state = "WAIT_PROOF" ∧
    "WAIT_PROOF" ≠ "WAIT_ORDER" := by
  refine ⟨rfl, rfl, rfl, ?_⟩
  decide

/-- C8 amended: for every record whose `manualUntil` has passed at evaluation
time, the manual-gate predicate returns `false` and lazily clears
`manualUntil`, but it leaves the intake phase (and the order/proof fields)
untouched; the phase is reset only by TTL expiry or an explicit reset. -/
theorem isManual_expired_clears_window (st : St) (n : Nat)
    (h0 : st.manualUntil ≠ 0) (h1 : st.manualUntil ≤ n) :
    (isManualStep st n).1 = false ∧
    (isManualStep st n).2.manualUntil = 0 ∧
    (isManualStep st n).2.state = st.state ∧
    (isManualStep st n).2.order = st.order ∧
    (isManualStep st n).2.pushed = st.pushed := by
  have hlt : ¬ n < st.manualUntil := by omega
  simp [isManualStep, h0, hlt]

theorem isManual_expired_clears_window_witness :
    (isManualStep stManualExpired 10).1 = false ∧
    (isManualStep stManualExpired 10).2.manualUntil = 0 ∧
    (isManualStep stManualExpired 10).2.state = stManualExpired.state ∧
    (isManualStep stManualExpired 10).2.order = stManualExpired.order ∧
    (isManualStep stManualExpired 10).2.pushed = stManualExpired.pushed :=
  isManual_expired_clears_window stManualExpired 10 (by decide) (by decide)

/-! ## C10: the greeting prefix policy -/

/-- C10: every reply funnels through `replyWithGreetingIfNeeded`; when the
record was never greeted (`lastGreetAt = 0`) or the sender was idle longer
than `GREET_IDLE_MS` (7 days) since `lastSeenAt`, the greeting text is
prepended as a first message and `lastGreetAt` is stamped; otherwise exactly
the single main message is sent and `lastGreetAt` is unchanged. -/
theorem greeting_prefix_policy (st : St) (n : Nat) (mainText : String)
    (hm : mainText ≠ "") :
    (replyWithGreetingIfNeeded st n mainText).2 =
      (if st.lastGreetAt = 0 ∨ (st.lastSeenAt ≠ 0 ∧ GREET_IDLE_MS < n - st.lastSeenAt)
       then [Action.reply [GREETING_TEXT, mainText]]
       else [Action.reply [mainText]]) ∧
    (replyWithGreetingIfNeeded st n mainText).1.lastGreetAt =
      (if st.lastGreetAt = 0 ∨ (st.lastSeenAt ≠ 0 ∧ GREET_IDLE_MS < n - st.lastSeenAt)
       then n
       else st.lastGreetAt) := by
  unfold replyWithGreetingIfNeeded replyMany maybeFlushPresence
  dsimp only
  have hg : GREETING_TEXT ≠ "" := by decide
  by_cases hc : st.lastGreetAt = 0 ∨ (st.lastSeenAt ≠ 0 ∧ GREET_IDLE_MS < n - st.lastSeenAt)
  · simp [hc, hg, hm]
    split <;> rfl
  · simp [hc, hm]
    split <;> rfl

theorem greeting_prefix_policy_witness :
    (replyWithGreetingIfNeeded (defaultState 0) 7 "ok").2 =
      (if (defaultState 0).lastGreetAt = 0 ∨
          ((defaultState 0).lastSeenAt ≠ 0 ∧ GREET_IDLE_MS < 7 - (defaultState 0).lastSeenAt)
       then [Action.reply [GREETING_TEXT, "ok"]]
       else [Action.reply ["ok"]]) ∧
    (replyWithGreetingIfNeeded (defaultState 0) 7 "ok").1.lastGreetAt =
      (if (defaultState 0).lastGreetAt = 0 ∨
          ((defaultState 0).lastSeenAt ≠ 0 ∧ GREET_IDLE_MS < 7 - (defaultState 0).lastSeenAt)
       then 7
       else (defaultState 0).lastGreetAt) :=
  greeting_prefix_policy (defaultState 0) 7 "ok" (by decide)

/-! ## C1: the manual-handoff window suppresses every reply -/

/-- Is this action a push to the operator (the only effect the manual branch
may emit)? -/
def isAdminPush : Action → Bool
  | .pushAdmin _ => true
  | _ => false

theorem expireIfNeeded_manualUntil (st : St) (n : Nat) :
    (expireIfNeeded st n).manualUntil = st.manualUntil := by
  unfold expireIfNeeded resetState
  dsimp only
  repeat' split
  all_goals rfl

theorem normalizeCooldown_manualUntil (st : St) (n : Nat) :
    (normalizeCooldown st n).manualUntil = st.manualUntil := by
  unfold normalizeCooldown
  split <;> rfl

theorem manualBranch_actions (env : Env) (g : Glob) (st : St) (m : Msg) :
    ((manualBranch env g st m).2.2.all isAdminPush) = true := by
  unfold manualBranch
  dsimp only
  split <;> rfl

theorem manualBranch_manualUntil (env : Env) (g : Glob) (st : St) (m : Msg) :
    (manualBranch env g st m).1.manualUntil = st.manualUntil := by
  unfold manualBranch maybeFlushPresence
  dsimp only
  repeat' split
  all_goals rfl

/-- A single job processed strictly inside the manual window emits only
operator pushes (no reply of any kind) and leaves the window unchanged. -/
theorem handleEvent_manual (env : Env) (g : Glob) (st : St) (m : Msg)
    (h : env.n < st.manualUntil) :
    ((handleEvent env g st m).2.2.all isAdminPush) = true ∧
    (handleEvent env g st m).1.manualUntil = st.manualUntil := by
  unfold handleEvent
  dsimp only
  have h1 : (normalizeCooldown (expireIfNeeded st env.n) env.n).manualUntil
      = st.manualUntil := by
    rw [normalizeCooldown_manualUntil, expireIfNeeded_manualUntil]
  have hm : isManualStep (normalizeCooldown (expireIfNeeded st env.n) env.n) env.n
      = (true, normalizeCooldown (expireIfNeeded st env.n) env.n) := by
    unfold isManualStep
    rw [h1, if_neg (by omega), if_pos h]
  rw [hm]
  simp only [reduceIte]
  exact ⟨manualBranch_actions _ _ _ _, (manualBranch_manualUntil _ _ _ _).trans h1⟩

/-- C1: a user whose `manualUntil` lies strictly in the future at each
processing time receives no automated reply over an arbitrarily long run of
inbound messages — every emitted action is an operator push, and the window
itself is preserved by each job. -/
theorem manual_window_absorbs_all (g : Glob) (st : St) (evts : List (Env × Msg))
    (h : ∀ p ∈ evts, p.1.n < st.manualUntil) :
    ((runEvents g st evts).2.2.all isAdminPush) = true ∧
    (runEvents g st evts).1.manualUntil = st.manualUntil := by
  induction evts generalizing g st with
  | nil => exact ⟨rfl, rfl⟩
  | cons p rest ih =>
    obtain ⟨env, m⟩ := p
    have h0 : env.n < st.manualUntil := h _ (List.mem_cons_self _ _)
    have hstep := handleEvent_manual env g st m h0
    have hrest := ih (handleEvent env g st m).2.1 (handleEvent env g st m).1
      (fun q hq => hstep.2.symm ▸ h q (List.mem_cons_of_mem _ hq))
    unfold runEvents
    dsimp only
    refine ⟨?_, hrest.2.trans hstep.2⟩
    rw [List.all_append]
    simp [hstep.1, hrest.1]

/-- The idle admission-controller globals. -/
def gEmpty : Glob := ⟨0, [], []⟩

/-- A per-event environment at clock `k` with no KB and no profile. -/
def envAt (k : Nat) : Env :=
  { n := k, uid := "U4e5f", profileName := none, hasOpenAIKey := true,
    gptAnswer := "answer", kb := [] }

/-- A record one hour inside an active manual window. -/
def stManualActive : St :=
  { (defaultState 0) with
    manualUntil := 1000000, state := "WAIT_PROOF", updatedAt := 1 }

theorem manual_window_absorbs_all_witness :
    ((runEvents gEmpty stManualActive
        [(envAt 10, .text "在嗎"), (envAt 20, .image none),
         (envAt 500000, .sticker)]).2.2.all isAdminPush) = true ∧
    (runEvents gEmpty stManualActive
        [(envAt 10, .text "在嗎"), (envAt 20, .image none),
         (envAt 500000, .sticker)]).1.manualUntil = stManualActive.manualUntil :=
  manual_window_absorbs_all gEmpty stManualActive _ (by decide)

/-! ## C2: duplicate proof images after completion -/

/-- Is this action the operator handoff push (the `通關通知` template)? -/
def isHandoffPush : Action → Bool
  | .pushAdmin (.handoff _ _ _) => true
  | _ => false

theorem replyWithGreetingIfNeeded_pushed (st : St) (n : Nat) (tx : String) :
    (replyWithGreetingIfNeeded st n tx).1.pushed = st.pushed := by
  unfold replyWithGreetingIfNeeded maybeFlushPresence
  dsimp only
  repeat' split
  all_goals rfl

theorem replyWithGreetingIfNeeded_no_handoff (st : St) (n : Nat) (tx : String) :
    ((replyWithGreetingIfNeeded st n tx).2.all fun a => !isHandoffPush a) = true := by
  unfold replyWithGreetingIfNeeded replyMany maybeFlushPresence
  dsimp only
  repeat' split
  all_goals rfl

theorem bumpSpamCounters_pushed (st : St) (n : Nat) :
    (bumpSpamCounters st n).pushed = st.pushed := by
  unfold bumpSpamCounters
  dsimp only
  repeat' split
  all_goals rfl

theorem handleQueuedAntiSpam_pushed (st : St) (n : Nat) (w : Bool) :
    (handleQueuedAntiSpam st n w).1.pushed = st.pushed := by
  unfold handleQueuedAntiSpam enterCooldown shouldReplyQueueMessage
  dsimp only
  repeat' split
  all_goals exact bumpSpamCounters_pushed st n

theorem antiSpamReplyStep_pushed (st : St) (n : Nat) (w : Bool) :
    (antiSpamReplyStep st n w).1.pushed = st.pushed := by
  unfold antiSpamReplyStep
  dsimp only
  split
  · exact (replyWithGreetingIfNeeded_pushed _ _ _).trans
      (handleQueuedAntiSpam_pushed st n w)
  · exact handleQueuedAntiSpam_pushed st n w

theorem antiSpamReplyStep_no_handoff (st : St) (n : Nat) (w : Bool) :
    ((antiSpamReplyStep st n w).2.all fun a => !isHandoffPush a) = true := by
  unfold antiSpamReplyStep
  dsimp only
  repeat' split
  all_goals first | rfl | apply replyWithGreetingIfNeeded_no_handoff

theorem cooldownNotice_pushed (st : St) (n : Nat) :
    (cooldownNotice st n).1.pushed = st.pushed := by
  unfold cooldownNotice
  dsimp only
  split
  · apply replyWithGreetingIfNeeded_pushed
  · rfl

theorem cooldownNotice_no_handoff (st : St) (n : Nat) :
    ((cooldownNotice st n).2.all fun a => !isHandoffPush a) = true := by
  unfold cooldownNotice
  dsimp only
  split
  · apply replyWithGreetingIfNeeded_no_handoff
  · rfl

theorem expireIfNeeded_done (st : St) (n : Nat) (h : st.state = "DONE") :
    (expireIfNeeded st n).state = "DONE" ∧ (expireIfNeeded st n).pushed = st.pushed := by
  unfold expireIfNeeded resetState
  dsimp only
  repeat' split
  all_goals simp_all

theorem normalizeCooldown_state_pushed (st : St) (n : Nat) :
    (normalizeCooldown st n).state = st.state ∧
    (normalizeCooldown st n).pushed = st.pushed := by
  unfold normalizeCooldown
  split <;> exact ⟨rfl, rfl⟩

theorem isManualStep_state_pushed (st : St) (n : Nat) :
    (isManualStep st n).2.state = st.state ∧
    (isManualStep st n).2.pushed = st.pushed := by
  unfold isManualStep
  repeat' split
  all_goals exact ⟨rfl, rfl⟩

theorem manualBranch_pushed (env : Env) (g : Glob) (st : St) (m : Msg) :
    (manualBranch env g st m).1.pushed = st.pushed := by
  unfold manualBranch maybeFlushPresence
  dsimp only
  repeat' split
  all_goals rfl

theorem manualBranch_no_handoff (env : Env) (g : Glob) (st : St) (m : Msg) :
    ((manualBranch env g st m).2.2.all fun a => !isHandoffPush a) = true := by
  unfold manualBranch
  dsimp only
  split <;> rfl

theorem cooldownBranch_image (env : Env) (g : Glob) (st : St) (mid : Option String) :
    (cooldownBranch env g st (.image mid)).1.pushed = st.pushed ∧
    ((cooldownBranch env g st (.image mid)).2.2.all fun a => !isHandoffPush a) = true := by
  unfold cooldownBranch
  exact ⟨cooldownNotice_pushed st env.n, cooldownNotice_no_handoff st env.n⟩

theorem imageBranch_done (env : Env) (g : Glob) (st : St) (mid : Option String)
    (h : st.state = "DONE") :
    (imageBranch env g st mid).1.pushed = st.pushed ∧
    ((imageBranch env g st mid).2.2.all fun a => !isHandoffPush a) = true := by
  unfold imageBranch
  dsimp only
  have hne : ¬(st.state = "WAIT_PROOF" ∧ st.pushed = false) := by
    rw [h]; rintro ⟨hc, -⟩; exact absurd hc (by decide)
  rw [if_neg hne]
  split
  · exact ⟨antiSpamReplyStep_pushed st env.n true,
           antiSpamReplyStep_no_handoff st env.n true⟩
  · exact ⟨replyWithGreetingIfNeeded_pushed _ env.n TEXT_imageNoText,
           replyWithGreetingIfNeeded_no_handoff _ env.n TEXT_imageNoText⟩

/-- C2 amended: once the intake of a user is completed (`pushed = true`,
phase `DONE`), a further image message never produces a second operator
handoff push, and the `pushed` flag stays set — the handoff is idempotent.
The reply, however, is not the completion text in the evolved variant (see
the counterexample): outside manual/cooldown/queued handling it is
`TEXT.imageNoText`. -/
theorem duplicate_image_no_second_handoff (env : Env) (g : Glob) (st : St)
    (mid : Option String) (hp : st.pushed = true) (hs : st.state = "DONE") :
    ((handleEvent env g st (.image mid)).2.2.all fun a => !isHandoffPush a) = true ∧
    (handleEvent env g st (.image mid)).1.pushed = true := by
  unfold handleEvent
  dsimp only
  have he := expireIfNeeded_done st env.n hs
  have hn := normalizeCooldown_state_pushed (expireIfNeeded st env.n) env.n
  have hi := isManualStep_state_pushed
    (normalizeCooldown (expireIfNeeded st env.n) env.n) env.n
  have hs2 : (isManualStep (normalizeCooldown (expireIfNeeded st env.n) env.n) env.n).2.state
      = "DONE" := by rw [hi.1, hn.1, he.1]
  have hp2 : (isManualStep (normalizeCooldown (expireIfNeeded st env.n) env.n) env.n).2.pushed
      = true := by rw [hi.2, hn.2, he.2, hp]
  split
  · exact ⟨manualBranch_no_handoff _ _ _ _,
           (manualBranch_pushed _ _ _ _).trans hp2⟩
  split
  · exact ⟨(cooldownBranch_image _ _ _ _).2,
           ((cooldownBranch_image _ _ _ _).1).trans hp2⟩
  · exact ⟨(imageBranch_done _ _ _ _ hs2).2,
           ((imageBranch_done _ _ _ _ hs2).1).trans hp2⟩

/-- A completed record (proof accepted, handoff already pushed, manual window
and cooldown both over). -/
def stDupImage : St :=
  { (defaultState 900) with
    state := "DONE", pushed := true, order := some "12345",
    proofMessageId := some "m1", lastGreetAt := 500, lastSeenAt := 999 }

theorem duplicate_image_no_second_handoff_witness :
    ((handleEvent (envAt 1000) gEmpty stDupImage (.image (some "m2"))).2.2.all
      fun a => !isHandoffPush a) = true ∧
    (handleEvent (envAt 1000) gEmpty stDupImage (.image (some "m2"))).1.pushed = true :=
  duplicate_image_no_second_handoff (envAt 1000) gEmpty stDupImage (some "m2")
    (by decide) (by decide)

/-- C2 counterexample: on `stDupImage` (completed intake, `pushed = true`,
windows elapsed) a duplicate image is answered with `TEXT.imageNoText`
("please provide a 5-digit order id first"), not with the fixed completion
reply `TEXT.done` — the claim's "produces only the fixed completion reply"
fails on the evolved variant, although no second handoff push is sent. -/
theorem duplicate_image_reply_cex :
    (handleEvent (envAt 1000) gEmpty stDupImage (.image (some "m2"))).2.2
      = [Action.reply [TEXT_imageNoText]] ∧
    TEXT_imageNoText ≠ TEXT_done := by
  exact ⟨by decide, by decide⟩

/-! ## C6: cooldown versus the intake flow -/

/-- A record awaiting its proof image while a cooldown is active. -/
def stCooldownProof : St :=
  { (defaultState 900) with
    state := "WAIT_PROOF", order := some "12345", cooldownUntil := 5000,
    lastGreetAt := 500, lastSeenAt := 999 }

/-- A record awaiting an order id while a cooldown is active. -/
def stCooldownOrder : St :=
  { (defaultState 900) with
    cooldownUntil := 5000, lastGreetAt := 500, lastSeenAt := 999 }

/-- C6 failing-input evaluation: during an active cooldown a pure 5-digit
text still advances the intake (first two conjuncts), but a proof image in
`WAIT_PROOF` is NOT accepted — the cooldown branch intercepts every non-text
message, replies only the one-time cooldown notice, and the record stays in
`WAIT_PROOF` with `pushed = false` (last three conjuncts), contradicting the
code's own comment `冷卻中：只影響一般問題/GPT；領貨照走` and the spec's
"intake flow unaffected". -/
theorem cooldown_blocks_proof_image :
    (handleEvent (envAt 1000) gEmpty stCooldownOrder (.text "12345")).1.state
        = "WAIT_PROOF" ∧
    (handleEvent (envAt 1000) gEmpty stCooldownOrder (.text "12345")).1.order
        = some "12345" ∧
    (handleEvent (envAt 1000) gEmpty stCooldownProof (.image (some "m9"))).1.state
        = "WAIT_PROOF" ∧
    (handleEvent (envAt 1000) gEmpty stCooldownProof (.image (some "m9"))).1.pushed
        = false ∧
    (handleEvent (envAt 1000) gEmpty stCooldownProof (.image (some "m9"))).2.2
        = [Action.reply [TEXT_cooldown]] := by
  exact ⟨by decide, by decide, by decide, by decide, by decide⟩

/-! ## C4: a pure 5-digit text in `WAIT_ORDER` -/

theorem digit_not_space {c : Char} (h : isDigitCh c = true) : isJsSpace c = false := by
  cases hs : isJsSpace c
  · rfl
  · exfalso
    unfold isJsSpace at hs
    simp only [Bool.or_eq_true, decide_eq_true_eq] at hs
    rcases hs with ((((h1 | h2) | h3) | h4) | h5) | h6 <;>
      subst_vars <;> exact absurd h (by decide)

theorem dropWhile_sp_of_digits {l : List Char} (h : l.all isDigitCh = true) :
    l.dropWhile isJsSpace = l := by
  cases l with
  | nil => rfl
  | cons c rest =>
    rw [List.dropWhile_cons]
    have hc : isDigitCh c = true := by
      simp only [List.all_cons, Bool.and_eq_true] at h
      exact h.1
    rw [digit_not_space hc]
    simp

theorem jsTrimL_of_digits {l : List Char} (h : l.all isDigitCh = true) :
    jsTrimL l = l := by
  unfold jsTrimL
  rw [dropWhile_sp_of_digits h, dropWhile_sp_of_digits (by simpa using h),
    List.reverse_reverse]

theorem jsTrimL_pure_five {t : List Char}
    (h1 : ((t.dropWhile isJsSpace).take 5).length = 5)
    (h2 : ((t.dropWhile isJsSpace).take 5).all isDigitCh = true)
    (h3 : ((t.dropWhile isJsSpace).drop 5).all isJsSpace = true) :
    jsTrimL t = (t.dropWhile isJsSpace).take 5 := by
  unfold jsTrimL
  conv_lhs => rw [← List.take_append_drop 5 (t.dropWhile isJsSpace)]
  rw [List.reverse_append,
    List.dropWhile_append_of_pos (by
      intro a ha
      exact (List.all_eq_true.mp h3) _ (List.mem_reverse.mp ha)),
    dropWhile_sp_of_digits (by simpa using h2), List.reverse_reverse]

theorem pure5_parts {raw : String} (h : isPureFiveDigits raw = true) :
    ((raw.data.dropWhile isJsSpace).take 5).length = 5 ∧
    ((raw.data.dropWhile isJsSpace).take 5).all isDigitCh = true ∧
    ((raw.data.dropWhile isJsSpace).drop 5).all isJsSpace = true := by
  unfold isPureFiveDigits at h
  simp only [Bool.and_eq_true, decide_eq_true_eq] at h
  exact ⟨h.1.1, h.1.2, h.2⟩

theorem isPureFiveDigits_of_digits {l : List Char}
    (hlen : l.length = 5) (hd : l.all isDigitCh = true) :
    isPureFiveDigits (String.mk l) = true := by
  unfold isPureFiveDigits
  dsimp only
  rw [dropWhile_sp_of_digits hd]
  have ht : l.take 5 = l := List.take_of_length_le (by omega)
  have hdp : l.drop 5 = [] := List.drop_eq_nil_of_le (by omega)
  rw [ht, hdp, hlen, hd]
  rfl

theorem containsSub_digits {s : List Char} (hs : s.all isDigitCh = true)
    {c : Char} (hc : isDigitCh c = false) (k : List Char) :
    containsSub s (c :: k) = false := by
  induction s with
  | nil => rfl
  | cons d rest ih =>
    simp only [List.all_cons, Bool.and_eq_true] at hs
    have hcd : decide (c = d) = false := by
      apply decide_eq_false
      rintro rfl
      rw [hs.1] at hc
      exact Bool.noConfusion hc
    unfold containsSub leadMatch
    simp only [hcd, Bool.false_and, Bool.false_eq_true, if_false]
    exact ih hs.2

theorem hasInvoiceIntent_digits {t : String} (h : t.data.all isDigitCh = true) :
    hasInvoiceIntent t = false := by
  unfold hasInvoiceIntent
  dsimp only
  rw [jsTrimL_of_digits h]
  split
  · rfl
  · unfold invoiceKeys
    simp only [List.any_cons, List.any_nil, Bool.or_eq_false_iff]
    and_intros <;> first
      | trivial
      | exact containsSub_digits h (by decide) _

theorem replyWithGreetingIfNeeded_state_order (st : St) (n : Nat) (tx : String) :
    (replyWithGreetingIfNeeded st n tx).1.state = st.state ∧
    (replyWithGreetingIfNeeded st n tx).1.order = st.order := by
  unfold replyWithGreetingIfNeeded maybeFlushPresence
  dsimp only
  repeat' split
  all_goals exact ⟨rfl, rfl⟩

theorem replyWithGreetingIfNeeded_shape (st : St) (n : Nat) {tx : String}
    (htx : tx ≠ "") :
    ∃ msgs, (replyWithGreetingIfNeeded st n tx).2 = [Action.reply msgs] ∧
      msgs.getLast? = some tx := by
  unfold replyWithGreetingIfNeeded replyMany maybeFlushPresence
  dsimp only
  have hg : GREETING_TEXT ≠ "" := by decide
  split
  · exact ⟨[GREETING_TEXT, tx], by simp [hg, htx], by simp⟩
  · exact ⟨[tx], by simp [htx], by simp⟩

theorem expireIfNeeded_wait_order (st : St) (n : Nat) (h : st.state = "WAIT_ORDER") :
    (expireIfNeeded st n).state = "WAIT_ORDER" := by
  unfold expireIfNeeded resetState
  dsimp only
  repeat' split
  all_goals simp_all

theorem expireIfNeeded_state (st : St) (n : Nat) :
    (expireIfNeeded st n).state = st.state ∨
    (expireIfNeeded st n).state = "WAIT_ORDER" := by
  unfold expireIfNeeded resetState
  dsimp only
  repeat' split
  all_goals simp_all

theorem isManualStep_false (st : St) (n : Nat) (h : st.manualUntil ≤ n) :
    (isManualStep st n).1 = false := by
  unfold isManualStep
  repeat' split
  · rfl
  · omega
  · rfl

/-- C4: in `WAIT_ORDER`, outside an active manual window, a text consisting of
exactly five digits up to surrounding whitespace records those five digits as
the order id, advances the phase to `WAIT_PROOF`, and sends one reply whose
main (last) message is the proof-request text — both on the cooldown path and
on the normal path. -/
theorem pure_five_digit_advances (env : Env) (g : Glob) (st : St) (raw : String)
    (hstate : st.state = "WAIT_ORDER") (hmanual : st.manualUntil ≤ env.n)
    (h5 : isPureFiveDigits raw = true) :
    (handleEvent env g st (.text raw)).1.state = "WAIT_PROOF" ∧
    (handleEvent env g st (.text raw)).1.order
        = some (String.mk ((raw.data.dropWhile isJsSpace).take 5)) ∧
    ((raw.data.dropWhile isJsSpace).take 5).all isDigitCh = true ∧
    ((raw.data.dropWhile isJsSpace).take 5).length = 5 ∧
    ∃ msgs, (handleEvent env g st (.text raw)).2.2 = [Action.reply msgs] ∧
      msgs.getLast? = some TEXT_askProof := by
  obtain ⟨hL, hA, hS⟩ := pure5_parts h5
  have htrim : jsTrim raw = String.mk ((raw.data.dropWhile isJsSpace).take 5) := by
    unfold jsTrim
    rw [jsTrimL_pure_five hL hA hS]
  have hdig : (jsTrim raw).data.all isDigitCh = true := by rw [htrim]; exact hA
  have htrim2 : jsTrim (jsTrim raw) = jsTrim raw := by
    rw [htrim]
    unfold jsTrim
    rw [show (String.mk ((raw.data.dropWhile isJsSpace).take 5)).data
        = (raw.data.dropWhile isJsSpace).take 5 from rfl, jsTrimL_of_digits hA]
  have hpure2 : isPureFiveDigits (jsTrim raw) = true := by
    rw [htrim]
    exact isPureFiveDigits_of_digits hL hA
  unfold handleEvent
  dsimp only
  have hst0 : (normalizeCooldown (expireIfNeeded st env.n) env.n).state = "WAIT_ORDER" := by
    rw [(normalizeCooldown_state_pushed _ _).1]
    exact expireIfNeeded_wait_order st env.n hstate
  have hmu : (normalizeCooldown (expireIfNeeded st env.n) env.n).manualUntil ≤ env.n := by
    rw [normalizeCooldown_manualUntil, expireIfNeeded_manualUntil]
    exact hmanual
  rw [isManualStep_false _ _ hmu]
  simp only [Bool.false_eq_true, if_false]
  have hst1 : (isManualStep (normalizeCooldown (expireIfNeeded st env.n) env.n) env.n).2.state
      = "WAIT_ORDER" := by rw [(isManualStep_state_pushed _ _).1, hst0]
  set st1 := (isManualStep (normalizeCooldown (expireIfNeeded st env.n) env.n) env.n).2
  split
  · -- cooldown path
    unfold cooldownBranch
    dsimp only
    rw [if_pos ⟨hst1, hpure2⟩]
    dsimp only
    obtain ⟨msgs, hm1, hm2⟩ :=
      replyWithGreetingIfNeeded_shape
        { st1 with order := some (jsTrim (jsTrim raw)), state := "WAIT_PROOF",
                   updatedAt := env.n } env.n
        (show TEXT_askProof ≠ "" by decide)
    refine ⟨?_, ?_, hA, hL, msgs, hm1, hm2⟩
    · rw [(replyWithGreetingIfNeeded_state_order _ _ _).1]
    · rw [(replyWithGreetingIfNeeded_state_order _ _ _).2]
      dsimp only
      rw [htrim2, htrim]
  · -- normal path
    unfold textBranch
    dsimp only
    rw [if_neg (by
      rintro ⟨h1 | h1, -⟩ <;> rw [hst1] at h1 <;> exact absurd h1 (by decide))]
    rw [if_neg (by intro h1; rw [hst1] at h1; exact absurd h1 (by decide))]
    rw [if_neg (by intro h1; rw [hst1] at h1; exact absurd h1 (by decide))]
    rw [if_neg (by
      rintro ⟨-, h2, -⟩
      rw [hasInvoiceIntent_digits hdig] at h2
      exact Bool.noConfusion h2)]
    rw [if_pos ⟨hst1, hpure2⟩]
    dsimp only
    obtain ⟨msgs, hm1, hm2⟩ :=
      replyWithGreetingIfNeeded_shape
        { st1 with updatedAt := env.n, order := some (jsTrim (jsTrim raw)),
                   state := "WAIT_PROOF" } env.n
        (show TEXT_askProof ≠ "" by decide)
    refine ⟨?_, ?_, hA, hL, msgs, ?_, hm2⟩
    · rw [(replyWithGreetingIfNeeded_state_order _ _ _).1]
    · rw [(replyWithGreetingIfNeeded_state_order _ _ _).2]
      dsimp only
      rw [htrim2, htrim]
    · exact hm1

theorem pure_five_digit_advances_witness :
    (handleEvent (envAt 1000) gEmpty (defaultState 900) (.text " 54321 ")).1.state
        = "WAIT_PROOF" ∧
    (handleEvent (envAt 1000) gEmpty (defaultState 900) (.text " 54321 ")).1.order
        = some (String.mk ((" 54321 ".data.dropWhile isJsSpace).take 5)) ∧
    ((" 54321 ".data.dropWhile isJsSpace).take 5).all isDigitCh = true ∧
    ((" 54321 ".data.dropWhile isJsSpace).take 5).length = 5 ∧
    ∃ msgs, (handleEvent (envAt 1000) gEmpty (defaultState 900)
        (.text " 54321 ")).2.2 = [Action.reply msgs] ∧
      msgs.getLast? = some TEXT_askProof :=
  pure_five_digit_advances (envAt 1000) gEmpty (defaultState 900) " 54321 "
    (by decide) (by decide) (by decide)

/-! ## C5: the embedded order-candidate extractor -/

theorem find?_range_minimal {n b : Nat} {p : Nat → Bool}
    (h : (List.range n).find? p = some b) :
    p b = true ∧ ∀ k, k < b → p k = false := by
  rw [List.find?_eq_some] at h
  obtain ⟨hpb, as, bs, heq, hmin⟩ := h
  refine ⟨hpb, fun k hk => ?_⟩
  have hrl : (List.range n).length = n := List.length_range n
  have hlen : n = as.length + (bs.length + 1) := by
    have hc := congrArg List.length heq
    simp only [List.length_range, List.length_append, List.length_cons] at hc
    omega
  have hb : b = as.length := by
    have hbound : as.length < (List.range n).length := by omega
    have h1 : (List.range n)[as.length] = b := by
      rw [List.getElem_of_eq heq]
      rw [List.getElem_append_right (Nat.le_refl as.length)]
      simp
    rw [List.getElem_range] at h1
    omega
  have hkn : k < (List.range n).length := by omega
  have hka : k < as.length := by omega
  have hkas : k ∈ as := by
    have h2 : (List.range n)[k] = as[k] := by
      rw [List.getElem_of_eq heq]
      exact List.getElem_append_left hka
    rw [List.getElem_range] at h2
    rw [h2]
    exact List.getElem_mem _
  simpa using hmin k hkas

/-- C5 amended: the extractor locates the first isolated 5-digit run (the
leftmost regex match) and measures keyword proximity around
`s.indexOf(five)` — the first occurrence of those five digits as a raw
substring, which may differ from the run's own position; with the keyword
near that first occurrence it returns the run, otherwise it returns the run
exactly when no 7-or-more-digit run exists. -/
theorem extractOrderCandidate_spec (text : String) (i j : Nat)
    (hne : jsTrimL text.data ≠ [])
    (hnp : (decide ((jsTrimL text.data).length = 5) &&
            (jsTrimL text.data).all isDigitCh) = false)
    (hfirst : firstIsolatedFive (jsTrimL text.data) = some i)
    (hidx : indexOfSub (jsTrimL text.data)
        (((jsTrimL text.data).drop i).take 5) = some j) :
    isoFiveAt (jsTrimL text.data) i = true ∧
    (∀ k, k < i → isoFiveAt (jsTrimL text.data) k = false) ∧
    extractOrderCandidate text =
      (if orderKeywordIn (((jsTrimL text.data).drop (j - 10)).take
            (min (jsTrimL text.data).length
              (j + (((jsTrimL text.data).drop i).take 5).length + 10) - (j - 10)))
       then some (String.mk (((jsTrimL text.data).drop i).take 5))
       else if hasLongDigitRun (jsTrimL text.data)
       then none
       else some (String.mk (((jsTrimL text.data).drop i).take 5))) := by
  have hspec := find?_range_minimal (p := isoFiveAt (jsTrimL text.data)) hfirst
  refine ⟨hspec.1, hspec.2, ?_⟩
  unfold extractOrderCandidate
  dsimp only
  rw [if_neg hne]
  rw [if_neg (by simp only [hnp]; exact Bool.noConfusion)]
  rw [hfirst]
  dsimp only
  rw [hidx]

/-- The C5 counterexample text: an 11-digit run whose first five digits
shadow the true order id, followed by the keyword `訂單` directly before the
isolated run `12345`. -/
def cexText : String := "12345678901參考 訂單12345"

/-- C5 counterexample: in `cexText` the isolated 5-digit run starts at index
16 and the keyword `訂單` lies inside the 10-character window around it, yet
the extractor returns no candidate — `indexOf` finds the digits at position 0
(inside the 11-digit run), sees no keyword there, and the 7+-digit run then
vetoes the bare candidate. -/
theorem extract_keyword_near_run_cex :
    isoFiveAt cexText.data 16 = true ∧
    orderKeywordIn ((cexText.data.drop 6).take 15) = true ∧
    jsTrimL cexText.data = cexText.data ∧
    extractOrderCandidate cexText = none := by
  exact ⟨by decide, by decide, by decide, by decide⟩

theorem extractOrderCandidate_spec_witness :
    isoFiveAt (jsTrimL "訂單12345".data) 2 = true ∧
    (∀ k, k < 2 → isoFiveAt (jsTrimL "訂單12345".data) k = false) ∧
    extractOrderCandidate "訂單12345" =
      (if orderKeywordIn (((jsTrimL "訂單12345".data).drop (2 - 10)).take
            (min (jsTrimL "訂單12345".data).length
              (2 + (((jsTrimL "訂單12345".data).drop 2).take 5).length + 10) - (2 - 10)))
       then some (String.mk (((jsTrimL "訂單12345".data).drop 2).take 5))
       else if hasLongDigitRun (jsTrimL "訂單12345".data)
       then none
       else some (String.mk (((jsTrimL "訂單12345".data).drop 2).take 5))) :=
  extractOrderCandidate_spec "訂單12345" 2 2 (by decide) (by decide)
    (by decide) (by decide)

/-! ## C7: the knowledge-lookup acceptance threshold -/

theorem keyLe_refl (x : Nat × Nat × ℚ) : keyLe x x = true := by
  unfold keyLe
  simp

theorem keyLe_trans {x y z : Nat × Nat × ℚ}
    (h1 : keyLe x y = true) (h2 : keyLe y z = true) : keyLe x z = true := by
  unfold keyLe at *
  simp only [Bool.or_eq_true, Bool.and_eq_true, decide_eq_true_eq] at *
  rcases h1 with h1 | ⟨e1, h1⟩
  · rcases h2 with h2 | ⟨e2, h2⟩
    · exact Or.inl (Nat.lt_trans h1 h2)
    · exact Or.inl (e2 ▸ h1)
  · rcases h2 with h2 | ⟨e2, h2⟩
    · exact Or.inl (e1 ▸ h2)
    · refine Or.inr ⟨e1.trans e2, ?_⟩
      rcases h1 with h1 | ⟨f1, h1⟩
      · rcases h2 with h2 | ⟨f2, h2⟩
        · exact Or.inl (Nat.lt_trans h1 h2)
        · exact Or.inl (f2 ▸ h1)
      · rcases h2 with h2 | ⟨f2, h2⟩
        · exact Or.inl (f1 ▸ h2)
        · exact Or.inr ⟨f1.trans f2, le_trans h1 h2⟩

theorem keyLe_total (x y : Nat × Nat × ℚ) : (keyLe x y || keyLe y x) = true := by
  unfold keyLe
  simp only [Bool.or_eq_true, Bool.and_eq_true, decide_eq_true_eq]
  rcases Nat.lt_trichotomy x.1 y.1 with h | h | h
  · exact Or.inl (Or.inl h)
  · rcases Nat.lt_trichotomy x.2.1 y.2.1 with h' | h' | h'
    · exact Or.inl (Or.inr ⟨h, Or.inl h'⟩)
    · rcases le_total x.2.2 y.2.2 with h'' | h''
      · exact Or.inl (Or.inr ⟨h, Or.inr ⟨h', h''⟩⟩)
      · exact Or.inr (Or.inr ⟨h.symm, Or.inr ⟨h'.symm, h''⟩⟩)
    · exact Or.inr (Or.inr ⟨h.symm, Or.inl h'⟩)
  · exact Or.inr (Or.inl h)

theorem keyLe_antisymm {x y : Nat × Nat × ℚ}
    (h1 : keyLe x y = true) (h2 : keyLe y x = true) : x = y := by
  unfold keyLe at *
  simp only [Bool.or_eq_true, Bool.and_eq_true, decide_eq_true_eq] at *
  obtain ⟨a1, b1, c1⟩ := x
  obtain ⟨a2, b2, c2⟩ := y
  dsimp only at *
  have ha : a1 = a2 := by
    rcases h1 with h1 | ⟨e1, -⟩ <;> rcases h2 with h2 | ⟨e2, -⟩ <;> omega
  subst ha
  have hb : b1 = b2 := by
    rcases h1 with h1 | ⟨-, h1⟩ <;> rcases h2 with h2 | ⟨-, h2⟩ <;>
      first
        | omega
        | (rcases h1 with h1 | ⟨f1, -⟩ <;> rcases h2 with h2 | ⟨f2, -⟩ <;> omega)
  subst hb
  have hc : c1 = c2 := by
    rcases h1 with h1 | ⟨-, h1⟩
    · omega
    rcases h2 with h2 | ⟨-, h2⟩
    · omega
    rcases h1 with h1 | ⟨-, h1⟩
    · omega
    rcases h2 with h2 | ⟨-, h2⟩
    · omega
    exact le_antisymm h1 h2
  subst hc
  rfl

theorem kbLe_refl (a : KBItem × KbRank) : kbLe a a = true := keyLe_refl _

theorem kbLe_trans {a b c : KBItem × KbRank}
    (h1 : kbLe a b = true) (h2 : kbLe b c = true) : kbLe a c = true :=
  keyLe_trans h2 h1

theorem kbLe_total (a b : KBItem × KbRank) : (kbLe a b || kbLe b a) = true := by
  unfold kbLe
  rw [Bool.or_comm]
  exact keyLe_total _ _

theorem kbPass_of_keyLe_both {a b : KBItem × KbRank}
    (h1 : kbLe a b = true) (h2 : kbLe b a = true) : kbPass a = kbPass b := by
  have hk : kbKey b = kbKey a := keyLe_antisymm h1 h2
  have hs : b.2.strong = a.2.strong := by
    have h1' := congrArg Prod.fst hk
    unfold kbKey at h1'
    dsimp only at h1'
    cases hb : b.2.strong <;> cases ha : a.2.strong <;>
      rw [hb, ha] at h1' <;> simp at h1' <;> rfl
  have hsc : b.2.score = a.2.score := congrArg (Prod.fst ∘ Prod.snd) hk
  have hr : b.2.ratio = a.2.ratio := congrArg (Prod.snd ∘ Prod.snd) hk
  unfold kbPass
  rw [hs, hsc, hr]

theorem mergeSort_head_max {l : List (KBItem × KbRank)} {b : KBItem × KbRank}
    (h : (l.mergeSort kbLe).head? = some b) :
    b ∈ l ∧ ∀ c ∈ l, kbLe b c = true := by
  have hsorted : (l.mergeSort kbLe).Pairwise (fun a c => kbLe a c = true) := by
    apply List.sorted_mergeSort
    · exact fun a b c h1 h2 => kbLe_trans h1 h2
    · exact fun a b => kbLe_total a b
  obtain ⟨rest, hrest⟩ : ∃ rest, l.mergeSort kbLe = b :: rest := by
    cases hM : l.mergeSort kbLe with
    | nil => rw [hM] at h; cases h
    | cons x xs =>
      rw [hM] at h
      injection h with hx
      exact ⟨xs, by rw [hx]⟩
  constructor
  · have hb : b ∈ l.mergeSort kbLe := by rw [hrest]; exact List.mem_cons_self _ _
    exact List.mem_mergeSort.mp hb
  · intro c hc
    have hcM : c ∈ b :: rest := by rw [← hrest]; exact List.mem_mergeSort.mpr hc
    rcases List.mem_cons.mp hcM with rfl | hcr
    · exact kbLe_refl _
    · rw [hrest] at hsorted
      exact (List.pairwise_cons.mp hsorted).1 c hcr

/-- The two acceptance ifs of `kbTopK` collapse to one test of `kbPass` on the
best-ranked candidate. -/
theorem kbTopK_eq (kb : List KBItem) (q : String) :
    kbTopK kb q 4 =
      (match ((kbCandidates kb q).mergeSort kbLe).head? with
       | none => []
       | some best =>
         if kbPass best
         then ((((kbCandidates kb q).mergeSort kbLe).take 4).map (·.1))
         else []) := by
  unfold kbTopK kbPass
  dsimp only
  have hhead : ((((kbCandidates kb q).mergeSort kbLe)).take 4).head?
      = (((kbCandidates kb q).mergeSort kbLe)).head? := by
    cases ((kbCandidates kb q).mergeSort kbLe) <;> rfl
  rw [hhead]
  cases hM : (((kbCandidates kb q).mergeSort kbLe)).head? with
  | none => rfl
  | some best =>
    dsimp only
    cases hb : best.2.strong with
    | true => simp
    | false =>
      simp only [Bool.false_or]
      cases hc : (decide (2 ≤ best.2.score) && decide ((2:ℚ)/5 ≤ best.2.ratio)) with
      | true => simp_all
      | false => simp_all

/-- C7: the knowledge lookup as called by the webhook (`kbTopK(t, 4)`) returns
a non-empty result exactly when there is a best-scoring candidate (one with a
positive score that every other positive-score candidate ranks at or below in
the (strong, hit-count, ratio) order) that is a strong match or has hit-count
at least 2 and hit ratio at least 0.4; otherwise it returns the empty
result. -/
theorem kb_lookup_threshold (kb : List KBItem) (q : String) :
    kbTopK kb q 4 ≠ [] ↔
      ∃ b ∈ kbCandidates kb q,
        (∀ c ∈ kbCandidates kb q, kbLe b c = true) ∧ kbPass b = true := by
  rw [kbTopK_eq]
  cases hM : (((kbCandidates kb q).mergeSort kbLe)).head? with
  | none =>
    have hnil : (kbCandidates kb q).mergeSort kbLe = [] :=
      List.head?_eq_none_iff.mp hM
    have hperm := List.mergeSort_perm (kbCandidates kb q) kbLe
    rw [hnil] at hperm
    have hLnil : kbCandidates kb q = [] := hperm.nil_eq.symm
    simp [hLnil]
  | some best =>
    have hmax := mergeSort_head_max hM
    obtain ⟨rest, hrest⟩ : ∃ rest, (kbCandidates kb q).mergeSort kbLe = best :: rest := by
      cases hM2 : (kbCandidates kb q).mergeSort kbLe with
      | nil => rw [hM2] at hM; cases hM
      | cons x xs =>
        rw [hM2] at hM
        injection hM with hx
        exact ⟨xs, by rw [hx]⟩
    dsimp only
    constructor
    · intro hne
      refine ⟨best, hmax.1, hmax.2, ?_⟩
      by_contra hpass
      exact hne (by rw [if_neg hpass])
    · rintro ⟨b, hbL, hbmax, hbpass⟩
      have h1 : kbLe best b = true := hmax.2 b hbL
      have h2 : kbLe b best = true := hbmax best hmax.1
      have hpb : kbPass best = true := by
        rw [kbPass_of_keyLe_both h1 h2]
        exact hbpass
      rw [if_pos hpb, hrest]
      simp

/-! ## C9: persistence round-trip -/

theorem mergeOverDefault_toStored (n : Nat) (st : St) :
    mergeOverDefault n (toStored st) = st := rfl

theorem storeSet_fresh (acc : List (String × St)) (uid : String) (v : St)
    (h : uid ∉ acc.map Prod.fst) : storeSet acc uid v = acc ++ [(uid, v)] := by
  induction acc with
  | nil => rfl
  | cons p rest ih =>
    obtain ⟨k, w⟩ := p
    simp only [List.map_cons, List.mem_cons, not_or] at h
    unfold storeSet
    rw [if_neg (fun he => h.1 he.symm)]
    rw [List.cons_append]
    congr 1
    exact ih h.2

theorem loadLoop_eq (n : Nat) (data : List (String × StoredSt)) :
    ∀ acc : List (String × St),
      (data.map Prod.fst).Nodup →
      (∀ u ∈ data.map Prod.fst, u ∉ acc.map Prod.fst) →
      loadLoop n data acc =
        acc ++ (data.filter fun p => isValidUserId p.1).map
          (fun p => (p.1, mergeOverDefault n p.2)) := by
  induction data with
  | nil => intro acc _ _; simp [loadLoop]
  | cons p rest ih =>
    intro acc hnd hdis
    obtain ⟨uid, s⟩ := p
    simp only [List.map_cons, List.nodup_cons] at hnd
    unfold loadLoop
    by_cases hv : isValidUserId uid = true
    · rw [if_pos hv]
      rw [storeSet_fresh acc uid _ (hdis uid (by simp))]
      rw [ih (acc ++ [(uid, mergeOverDefault n s)]) hnd.2 (by
        intro u hu
        simp only [List.map_append, List.mem_append, List.map_cons,
          List.map_nil, List.mem_singleton, not_or]
        refine ⟨hdis u (by simp [hu]), ?_⟩
        intro he
        exact hnd.1 (he ▸ hu))]
      simp [List.filter_cons, hv]
    · rw [if_neg hv]
      rw [ih acc hnd.2 (fun u hu => hdis u (by simp [hu]))]
      simp [List.filter_cons, hv]

theorem pruneStore_small {l : List (String × St)} (n : Nat)
    (h : l.length ≤ MAX_USERS) :
    pruneStore l n
      = l.filter fun p => !(lastOf p.2 ≠ 0 && PRUNE_AFTER_MS < n - lastOf p.2) := by
  unfold pruneStore
  rw [if_neg (by
    intro hgt
    have := List.length_filter_le
      (fun p => !(lastOf p.2 ≠ 0 && PRUNE_AFTER_MS < n - lastOf p.2)) l
    omega)]

/-- C9: flushing the state table to disk and loading it in a fresh process
yields exactly the retained records with format-valid keys, each equal to its
stored image merged over a freshly constructed default record (and merging a
fully-stored record over the default is the identity, so fields absent in the
stored data — and only those — take default values). -/
theorem persistence_roundtrip (l : List (String × St)) (n : Nat)
    (hnd : (l.map Prod.fst).Nodup) (hlen : l.length ≤ MAX_USERS) :
    loadModel (flushModel l n) n
      = (pruneStore l n).filter (fun p => isValidUserId p.1) ∧
    ∀ st : St, mergeOverDefault n (toStored st) = st := by
  refine ⟨?_, fun st => mergeOverDefault_toStored n st⟩
  have hP : pruneStore l n
      = l.filter fun p => !(lastOf p.2 ≠ 0 && PRUNE_AFTER_MS < n - lastOf p.2) :=
    pruneStore_small n hlen
  set P := pruneStore l n with hPdef
  have hPsub : P.Sublist l := by rw [hP]; exact List.filter_sublist l
  have hPlen : P.length ≤ MAX_USERS :=
    le_trans (List.Sublist.length_le hPsub) hlen
  have hPnd : (P.map Prod.fst).Nodup :=
    List.Nodup.sublist (List.Sublist.map Prod.fst hPsub) hnd
  have hflushkeys : (flushModel l n).map Prod.fst = P.map Prod.fst := by
    unfold flushModel
    rw [← hPdef, List.map_map]
    rfl
  unfold loadModel
  rw [loadLoop_eq n (flushModel l n) [] (by rw [hflushkeys]; exact hPnd)
    (by intro u _; simp)]
  rw [List.nil_append]
  have hstep : ((flushModel l n).filter fun p => isValidUserId p.1).map
      (fun p => (p.1, mergeOverDefault n p.2))
      = P.filter (fun p => isValidUserId p.1) := by
    unfold flushModel
    rw [← hPdef]
    rw [List.filter_map]
    rw [List.map_map]
    have : ((fun p => (p.1, mergeOverDefault n p.2)) ∘
        (fun p => (p.1, toStored p.2)) : String × St → String × St) = id := by
      funext p
      simp [mergeOverDefault_toStored]
    rw [show ((fun p => isValidUserId p.1) ∘ (fun p : String × St => (p.1, toStored p.2)))
        = fun p : String × St => isValidUserId p.1 from rfl]
    rw [this, List.map_id]
  rw [hstep]
  have hQlen : (P.filter (fun p => isValidUserId p.1)).length ≤ MAX_USERS :=
    le_trans (List.length_filter_le _ _) hPlen
  rw [pruneStore_small n hQlen]
  apply List.filter_eq_self.mpr
  intro p hp
  have hpP : p ∈ P := List.mem_of_mem_filter hp
  rw [hP] at hpP
  exact (List.mem_filter.mp hpP).2

/-- A two-user table: one format-valid key, one invalid. -/
def lC9 : List (String × St) :=
  [("U0123456789abcdef0123456789abcdef", { (defaultState 1) with
      state := "WAIT_PROOF", order := some "12345", lastSeenAt := 3 }),
   ("bob", defaultState 2)]

theorem persistence_roundtrip_witness :
    loadModel (flushModel lC9 5) 5
      = (pruneStore lC9 5).filter (fun p => isValidUserId p.1) ∧
    ∀ st : St, mergeOverDefault 5 (toStored st) = st :=
  persistence_roundtrip lC9 5 (by decide) (by decide)

end LineGate
